import Mathlib

/-!
Verification of the inventory-reservation engine and the stampede-safe
cache of the Final_cortez repository (Python, FastAPI + SQLAlchemy + Redis).

The embedding below translates, into Lean:
  * `services/order_detail_service.py` (`OrderDetailService.save` /
    `update` / `delete`): the Reserve / Adjust / Release operations on a
    product stock counter;
  * `repositories/base_repository_impl.py` (`BaseRepositoryImpl.save` /
    `update` / `remove`): session add / field update / delete followed by
    commit, with rollback on failure (the skip-`None` behaviour of
    `update`'s change dictionary is kept);
  * `services/cache_service.py` (`CacheService.get` / `set` /
    `get_or_set`): the read-through cache with JSON serialization and the
    distributed-lock stampede protection.

Machine integers of the source are Python's unbounded `int`, embedded as
`Int` / `Nat`; prices are Python floats used only through `abs (a - b) > 0.01`
comparisons and are embedded as `Rat`.  A database transaction is one
service call: pending session mutations become durable only at the
`session.commit()` point, and every failure path returns the unchanged
durable state (`session.rollback()`).  The possibility that the commit
itself fails is an explicit `commitOk` parameter.
-/

namespace FinalCortez

/-- Association-list lookup (first binding wins), the shape of a
`SELECT ... WHERE id_key == k` returning at most one row, and of a
key-value-store read. -/
def alookup {κ α : Type} [DecidableEq κ] : List (κ × α) → κ → Option α
  | [], _ => none
  | (k, v) :: rest, i => if k = i then some v else alookup rest i

/-- Update the value bound to key `i` (all bindings of `i`, of which a
well-formed table has at most one); keys are untouched. -/
def aupdate {κ α : Type} [DecidableEq κ] : List (κ × α) → κ → (α → α) →
    List (κ × α)
  | [], _, _ => []
  | (k, v) :: rest, i, f => (k, if k = i then f v else v) :: aupdate rest i f

/-- Remove every binding of key `i` (a `DELETE ... WHERE id_key == i`). -/
def aremove {κ α : Type} [DecidableEq κ] : List (κ × α) → κ →
    List (κ × α)
  | [], _ => []
  | (k, v) :: rest, i =>
    if k = i then aremove rest i else (k, v) :: aremove rest i

/-- Exact subtraction of rationals through `mkRat` (Batteries marks the
arithmetic on `Rat` irreducible, so the embedding carries its own
kernel-computable copy; `ratSub_eq` below identifies it with `Sub.sub`). -/
def ratSub (a b : Rat) : Rat :=
  mkRat (a.num * b.den - b.num * a.den) (a.den * b.den)

/-- Python's `abs` on the price differences (`pyAbs_eq` below identifies it
with `|·|`). -/
def pyAbs (a : Rat) : Rat := if Rat.blt a 0 then mkRat (-a.num) a.den else a

/-- The `0.01` price tolerance of `OrderDetailService.save`. -/
def priceTol : Rat := mkRat 1 100

/-- A row of the `products` table, the two columns the reservation engine
touches (`models/product.py`): the stock counter and the unit price. -/
structure Product where
  stock : Int
  price : Rat
  deriving Repr, DecidableEq

/-- A row of the `order_details` table (`models/order_detail.py`). -/
structure OrderDetail where
  quantity : Int
  price : Rat
  order_id : Nat
  product_id : Nat
  deriving Repr, DecidableEq

/-- The database state the reservation engine touches: the set of existing
order ids, the products table and the order-details table, keyed by
`id_key`. -/
structure DB where
  orders : List Nat
  products : List (Nat × Product)
  details : List (Nat × OrderDetail)
  deriving Repr, DecidableEq

def DB.findProduct (db : DB) (pid : Nat) : Option Product :=
  alookup db.products pid

def DB.findDetail (db : DB) (i : Nat) : Option OrderDetail :=
  alookup db.details i

/-- Overwrite the stock of product `pid` (the `product_model.stock -= ...`
session mutation). -/
def DB.setStock (db : DB) (pid : Nat) (s : Int) : DB :=
  { db with products := aupdate db.products pid (fun p => { p with stock := s }) }

/-- Insert a new order-detail row (`session.add(model)`). -/
def DB.insertDetail (db : DB) (i : Nat) (d : OrderDetail) : DB :=
  { db with details := (i, d) :: db.details }

/-- Overwrite the row `i` of the order-details table (the `setattr` loop of
`BaseRepositoryImpl.update`). -/
def DB.setDetail (db : DB) (i : Nat) (d : OrderDetail) : DB :=
  { db with details := aupdate db.details i (fun _ => d) }

/-- Delete the row `i` of the order-details table
(`BaseRepositoryImpl.remove`). -/
def DB.removeDetail (db : DB) (i : Nat) : DB :=
  { db with details := aremove db.details i }

/-- The fresh `id_key` the database assigns to an inserted order-detail row
(autoincrement: strictly larger than every existing key). -/
def DB.freshDetailId (db : DB) : Nat :=
  (db.details.map Prod.fst).foldr max 0 + 1

/-- The error taxonomy of the service layer, one constructor per distinct
raise site: `InstanceNotFoundError` for the order / product / order-detail
lookups, `ValueError` for the insufficient-stock and the price-mismatch
checks of `order_detail_service.py`, and a database error at commit time
(re-raised after `session.rollback()` in `base_repository_impl.py`). -/
inductive SvcError
  | orderNotFound
  | productNotFound
  | detailNotFound
  | insufficientStock
  | priceMismatch
  | persistence
  deriving Repr, DecidableEq

/-- The fields of `OrderDetailSchema` as `OrderDetailService.save` reads
them: `quantity`, `order_id`, `product_id` required, `price` optional
(auto-filled from the product). -/
structure SaveSchema where
  quantity : Int
  price : Option Rat
  order_id : Nat
  product_id : Nat
  deriving Repr, DecidableEq

/-- The pydantic validation on `OrderDetailSchema`
(`schemas/order_detail_schema.py`): `quantity` has `gt=0` and `price`,
when given, has `gt=0`. -/
def SaveSchema.valid (s : SaveSchema) : Prop :=
  0 < s.quantity ∧ ∀ pr ∈ s.price, 0 < pr

/-- The update payload as `OrderDetailService.update` reads it: every field
is tested against `None` before being used, and `BaseRepositoryImpl.update`
skips `None` values when applying the change dictionary. -/
structure UpdateSchema where
  quantity : Option Int
  price : Option Rat
  order_id : Option Nat
  product_id : Option Nat
  deriving Repr, DecidableEq

/-- Validated update payload: a supplied quantity or price is positive. -/
def UpdateSchema.valid (s : UpdateSchema) : Prop :=
  (∀ q ∈ s.quantity, 0 < q) ∧ ∀ pr ∈ s.price, 0 < pr

namespace OrderDetailService

/-- `OrderDetailService.save` (Reserve), lines 31-122 of
`services/order_detail_service.py`, one database transaction:

1. `self._order_repository.find(schema.order_id)` — `InstanceNotFoundError`
   if the order is absent;
2. `SELECT ... FOR UPDATE` on the product row — `InstanceNotFoundError` if
   absent;
3. insufficient-stock check `product_model.stock < schema.quantity`;
4. `schema.price` defaulted to `product_model.price` when `None`;
5. price-mismatch check `abs(schema.price - product_model.price) > 0.01`;
6. `product_model.stock -= schema.quantity`, then `super().save(schema)` →
   `BaseRepositoryImpl.save`: `session.add`; `session.commit()`.

`commitOk = false` is a database failure at the commit: the repository
rolls the session back (both pending writes discarded) and re-raises.  The
returned `DB` is the durable state after the call. -/
def save (commitOk : Bool) (db : DB) (s : SaveSchema) :
    Except SvcError OrderDetail × DB :=
  if s.order_id ∈ db.orders then
    match db.findProduct s.product_id with
    | none => (.error .productNotFound, db)
    | some p =>
      if p.stock < s.quantity then (.error .insufficientStock, db)
      else
        let price := s.price.getD p.price
        if Rat.blt priceTol (pyAbs (ratSub price p.price)) then (.error .priceMismatch, db)
        else
          let d : OrderDetail :=
            { quantity := s.quantity, price := price
              order_id := s.order_id, product_id := s.product_id }
          let session := (db.setStock s.product_id (p.stock - s.quantity)).insertDetail
            db.freshDetailId d
          if commitOk then (.ok d, session) else (.error .persistence, db)
  else (.error .orderNotFound, db)

/-- The stock-adjustment branch of `OrderDetailService.update`, lines
156-199: entered when `product_id` or `quantity` is supplied; locks the
*effective* product (the new one when `product_id` changes), and adjusts
its stock by `quantity_diff` only when a quantity is supplied and differs
from the existing one. -/
def updateStock (db : DB) (existing : OrderDetail) (s : UpdateSchema) :
    Except SvcError DB :=
  if s.product_id.isSome || s.quantity.isSome then
    let pid := s.product_id.getD existing.product_id
    match db.findProduct pid with
    | none => .error .productNotFound
    | some p =>
      match s.quantity with
      | some q =>
        if q ≠ existing.quantity then
          let diff := q - existing.quantity
          if 0 < diff ∧ p.stock < diff then .error .insufficientStock
          else .ok (db.setStock pid (p.stock - diff))
        else .ok db
      | none => .ok db
  else .ok db

/-- `OrderDetailService.update` (Adjust), lines 124-202:

1. `self._repository.find(id_key)` — `InstanceNotFoundError` if absent;
2. order-existence check when `order_id` is supplied;
3. the stock-adjustment branch (`updateStock`);
4. `super().update(id_key, schema)`.

Modelled from the spec: `services/base_service_impl.py` is imported by
every service but absent from the sources; per the spec it is request
plumbing — "pass-through persistence calls" — so `super().update` is
modelled as `BaseRepositoryImpl.update(id_key, changes)` with `changes`
the schema's field dictionary.  That repository method (present in the
sources, lines 146-238) skips `None` values, overwrites the allowed
columns, and commits; on failure it rolls back (discarding the pending
stock adjustment too) and re-raises. -/
def update (commitOk : Bool) (db : DB) (idKey : Nat) (s : UpdateSchema) :
    Except SvcError OrderDetail × DB :=
  match db.findDetail idKey with
  | none => (.error .detailNotFound, db)
  | some existing =>
    let orderOk := match s.order_id with
      | none => true
      | some oid => decide (oid ∈ db.orders)
    if orderOk then
      match updateStock db existing s with
      | .error e => (.error e, db)
      | .ok db1 =>
        let d : OrderDetail :=
          { quantity := s.quantity.getD existing.quantity
            price := s.price.getD existing.price
            order_id := s.order_id.getD existing.order_id
            product_id := s.product_id.getD existing.product_id }
        let session := db1.setDetail idKey d
        if commitOk then (.ok d, session) else (.error .persistence, db)
    else (.error .orderNotFound, db)

/-- `OrderDetailService.delete` (Release), lines 204-255:

1. `self._repository.find(id_key)` — `InstanceNotFoundError` if absent;
2. `SELECT ... FOR UPDATE` on the product row — `InstanceNotFoundError` if
   absent;
3. `product_model.stock += order_detail.quantity`, then
   `super().delete(id_key)` → `BaseRepositoryImpl.remove`:
   `session.delete`; `session.commit()` (rollback on failure). -/
def delete (commitOk : Bool) (db : DB) (idKey : Nat) :
    Except SvcError Unit × DB :=
  match db.findDetail idKey with
  | none => (.error .detailNotFound, db)
  | some d =>
    match db.findProduct d.product_id with
    | none => (.error .productNotFound, db)
    | some p =>
      let session := (db.setStock d.product_id (p.stock + d.quantity)).removeDetail idKey
      if commitOk then (.ok (), session) else (.error .persistence, db)

end OrderDetailService

/-- One inbound mutation of the reservation engine: Reserve
(`OrderDetailService.save`), Adjust (`OrderDetailService.update`) or
Release (`OrderDetailService.delete`), together with whether its commit
succeeds. -/
inductive Op
  | reserve (s : SaveSchema) (commitOk : Bool)
  | adjust (idKey : Nat) (s : UpdateSchema) (commitOk : Bool)
  | release (idKey : Nat) (commitOk : Bool)
  deriving Repr

/-- Payloads reaching the service went through pydantic validation. -/
def Op.valid : Op → Prop
  | .reserve s _ => s.valid
  | .adjust _ s _ => s.valid
  | .release _ _ => True

instance (s : SaveSchema) : Decidable s.valid :=
  inferInstanceAs (Decidable (0 < s.quantity ∧ ∀ pr ∈ s.price, 0 < pr))

instance (s : UpdateSchema) : Decidable s.valid :=
  inferInstanceAs (Decidable ((∀ q ∈ s.quantity, 0 < q) ∧ ∀ pr ∈ s.price, 0 < pr))

instance : DecidablePred Op.valid := fun op =>
  match op with
  | .reserve s _ => inferInstanceAs (Decidable s.valid)
  | .adjust _ s _ => inferInstanceAs (Decidable s.valid)
  | .release _ _ => inferInstanceAs (Decidable True)

/-- The durable database state after one operation (each service call is
one transaction; a failed call leaves the durable state it was given). -/
def applyOp (db : DB) : Op → DB
  | .reserve s c => (OrderDetailService.save c db s).2
  | .adjust i s c => (OrderDetailService.update c db i s).2
  | .release i c => (OrderDetailService.delete c db i).2

/-- Sequential execution of a list of operations. -/
def applyOps (db : DB) : List Op → DB :=
  List.foldl applyOp db

/-- Every product row has a non-negative stock counter. -/
def DB.stocksNonneg (db : DB) : Prop :=
  ∀ kv ∈ db.products, 0 ≤ kv.2.stock

/-- Every order-detail row has a positive quantity (pydantic `gt=0`). -/
def DB.detailsPos (db : DB) : Prop :=
  ∀ kv ∈ db.details, 0 < kv.2.quantity

/-- The state invariant of the inventory data model. -/
def DB.inv (db : DB) : Prop :=
  db.stocksNonneg ∧ db.detailsPos

instance (db : DB) : Decidable db.stocksNonneg :=
  inferInstanceAs (Decidable (∀ kv ∈ db.products, 0 ≤ kv.2.stock))

instance (db : DB) : Decidable db.detailsPos :=
  inferInstanceAs (Decidable (∀ kv ∈ db.details, 0 < kv.2.quantity))

instance (db : DB) : Decidable db.inv :=
  inferInstanceAs (Decidable (db.stocksNonneg ∧ db.detailsPos))

/-- Sum of the quantities of the line items currently reserved against
product `pid` (the spec's conservation-law right-hand side). -/
def DB.reservedSum (db : DB) (pid : Nat) : Int :=
  ((db.details.filter (fun kv => kv.2.product_id = pid)).map
    (fun kv => kv.2.quantity)).sum

/-! ### The cache layer (`services/cache_service.py`)

Cached payloads are Python values serialized to strings: `CacheService.set`
passes a non-`str` value through `json.dumps` and stores a `str` raw;
`CacheService.get` tries `json.loads` and falls back to the raw string.
The embedding recognizes the full `json.loads` grammar (objects, arrays,
strings with escapes, numbers with fractions and exponents, whitespace,
and the Python-default extensions `NaN` / `Infinity` / `-Infinity`) and
decodes the scalar values the claims quantify over — `None`, booleans,
integers, and escape-free strings; a text that parses to anything else
lands in the `pyjson` bucket below.  `redis_config.py` sets
`decode_responses=True`, so stored and loaded values are strings. -/

/-- A Python value on the cache API.  `pynone` doubles as Python's `None`,
the miss signal of `CacheService.get`.  `pyjson s` is the value
`json.loads s` returns for a JSON text `s` that parses successfully but
whose value the embedding does not decode (a float, `NaN`/`Infinity`, an
array, an object, or a string literal containing escapes), tagged by its
source text; it is never produced by serializing the decoded scalars, and
the round-trip predicate below excludes it. -/
inductive PyVal
  | pynone
  | pybool (b : Bool)
  | pyint (n : Int)
  | pystr (s : String)
  | pyjson (s : String)
  deriving Repr, DecidableEq

/-- The serialization step of `CacheService.set`:
`if not isinstance(value, str): value = json.dumps(value)` — a string is
stored raw, any other value is JSON-encoded.  For the undecoded `pyjson`
bucket the stored text is its source text; no theorem relies on
serialization fidelity for that constructor (`roundTrips` excludes it). -/
def serializeForStore : PyVal → String
  | .pystr s => s
  | .pynone => "null"
  | .pybool true => "true"
  | .pybool false => "false"
  | .pyint n => toString n
  | .pyjson s => s

/-- JSON whitespace (RFC 8259: space, tab, line feed, carriage return),
which `json.loads` skips around values and between tokens. -/
def isJsonWs (c : Char) : Bool :=
  c = ' ' || c = '\t' || c = '\n' || c = '\r'

def skipWs : List Char → List Char
  | [] => []
  | c :: rest => if isJsonWs c then skipWs rest else c :: rest

def isHexChar (c : Char) : Bool :=
  decide ((48 ≤ c.toNat ∧ c.toNat ≤ 57) ∨ (65 ≤ c.toNat ∧ c.toNat ≤ 70) ∨
    (97 ≤ c.toNat ∧ c.toNat ≤ 102))

/-- Scan a JSON string literal after its opening quote, as `json.loads`
does with its default `strict=True`: raw control characters (below 0x20)
are a parse error, the short escapes and `\uXXXX` (four hex digits) are
accepted.  Returns the remaining input and, when the literal contains no
escape, its body — decoding is then the identity; a valid literal with
escapes is flagged `none` (parsed by the program, not decoded by the
embedding). -/
def scanString : List Char → Option (Option (List Char) × List Char)
  | [] => none
  | '"' :: rest => some (some [], rest)
  | '\\' :: e :: rest =>
    if e = '"' || e = '\\' || e = '/' || e = 'b' || e = 'f' || e = 'n' || e = 'r' || e = 't' then
      match scanString rest with
      | some (_, r) => some (none, r)
      | none => none
    else if e = 'u' then
      match rest with
      | h1 :: h2 :: h3 :: h4 :: rest2 =>
        if isHexChar h1 && isHexChar h2 && isHexChar h3 && isHexChar h4 then
          match scanString rest2 with
          | some (_, r) => some (none, r)
          | none => none
        else none
      | _ => none
    else none
  | ['\\'] => none
  | c :: rest =>
    if c.toNat < 32 then none
    else
      match scanString rest with
      | some (some body, r) => some (some (c :: body), r)
      | some (none, r) => some (none, r)
      | none => none

/-- Split the longest digit run off the front of the input. -/
def takeDigits : List Char → List Char × List Char
  | [] => ([], [])
  | c :: rest =>
    if 48 ≤ c.toNat ∧ c.toNat ≤ 57 then
      (c :: (takeDigits rest).1, (takeDigits rest).2)
    else ([], c :: rest)

/-- Numeric value of a digit run. -/
def digitsVal (ds : List Char) : Nat :=
  ds.foldl (fun a c => a * 10 + (c.toNat - 48)) 0

/-- Scan a JSON exponent part after the `e`/`E`: an optional sign, then
one or more digits. -/
def scanExpAfterE : List Char → Option (List Char)
  | [] => none
  | c :: rest =>
    if c = '+' || c = '-' then
      match takeDigits rest with
      | ([], _) => none
      | (_ :: _, r) => some r
    else
      match takeDigits (c :: rest) with
      | ([], _) => none
      | (_ :: _, r) => some r

/-- After the integer digits of a JSON number: an optional fraction
(`.` then one or more digits) and an optional exponent make it a float
(`false` — undecoded); otherwise it stays the integer `mag` (`true`). -/
def scanNumTail (mag : Nat) : List Char → Option (Bool × Nat × List Char)
  | [] => some (true, mag, [])
  | c :: rest =>
    if c = '.' then
      match takeDigits rest with
      | ([], _) => none
      | (_ :: _, r) =>
        match r with
        | [] => some (false, 0, [])
        | e :: r2 =>
          if e = 'e' || e = 'E' then
            match scanExpAfterE r2 with
            | some r3 => some (false, 0, r3)
            | none => none
          else some (false, 0, e :: r2)
    else if c = 'e' || c = 'E' then
      match scanExpAfterE rest with
      | some r => some (false, 0, r)
      | none => none
    else some (true, mag, c :: rest)

/-- Scan a JSON number after an optional leading minus.  The integer part
is `0` alone or a nonzero digit followed by digits — a leading zero, as in
`012`, is a `json.loads` error (the `0` parses and the trailing digits
make the document invalid). -/
def scanNumAfterSign : List Char → Option (Bool × Nat × List Char)
  | [] => none
  | c :: rest =>
    if c.toNat = 48 then scanNumTail 0 rest
    else if 49 ≤ c.toNat ∧ c.toNat ≤ 57 then
      scanNumTail (digitsVal (c :: (takeDigits rest).1)) (takeDigits rest).2
    else none

/-- Parser mode of the JSON recognizer: a single value, the inside of an
array right after `[` (an element or `]`), array continuation after an
element (`,` or `]`), the inside of an object right after `{`, object
continuation after a member. -/
inductive ScanMode
  | val
  | arrFirst
  | arrNext
  | objFirst
  | objNext
  deriving Repr, DecidableEq

/-- Classification of a scanned value: the scalar kinds the embedding
decodes (`kstr` carries the body only for escape-free literals), or
`kother` for every other successfully parsed value (floats,
`NaN`/`Infinity`, arrays, objects).  Non-`val` modes report `kother`. -/
inductive JKind
  | knull
  | kbool (b : Bool)
  | kint (n : Int)
  | kstr (plain : Option String)
  | kother
  deriving Repr, DecidableEq

/-- The recognizer for Python's `json.loads` (with its default extensions
`NaN`, `Infinity`, `-Infinity`), written on explicit fuel so the kernel
can evaluate it: consume one construct according to the mode, returning
its classification and the remaining input, or `none` for a parse error.
Every recursive call decreases the fuel and at least every second call
consumes a character, so the fuel supplied by `jsonLoads` (twice the input
length plus a margin) never runs out. -/
def scan : Nat → ScanMode → List Char → Option (JKind × List Char)
  | 0, _, _ => none
  | fuel + 1, .val, cs =>
    match cs with
    | 'n' :: 'u' :: 'l' :: 'l' :: rest => some (.knull, rest)
    | 't' :: 'r' :: 'u' :: 'e' :: rest => some (.kbool true, rest)
    | 'f' :: 'a' :: 'l' :: 's' :: 'e' :: rest => some (.kbool false, rest)
    | 'N' :: 'a' :: 'N' :: rest => some (.kother, rest)
    | 'I' :: 'n' :: 'f' :: 'i' :: 'n' :: 'i' :: 't' :: 'y' :: rest => some (.kother, rest)
    | '-' :: 'I' :: 'n' :: 'f' :: 'i' :: 'n' :: 'i' :: 't' :: 'y' :: rest => some (.kother, rest)
    | '"' :: rest =>
      match scanString rest with
      | some (some body, r) => some (.kstr (some (String.mk body)), r)
      | some (none, r) => some (.kstr none, r)
      | none => none
    | '[' :: rest => scan fuel .arrFirst (skipWs rest)
    | '{' :: rest => scan fuel .objFirst (skipWs rest)
    | '-' :: rest =>
      match scanNumAfterSign rest with
      | some (true, mag, r) => some (.kint (-(mag : Int)), r)
      | some (false, _, r) => some (.kother, r)
      | none => none
    | other =>
      match scanNumAfterSign other with
      | some (true, mag, r) => some (.kint ((mag : Int)), r)
      | some (false, _, r) => some (.kother, r)
      | none => none
  | fuel + 1, .arrFirst, cs =>
    match cs with
    | ']' :: rest => some (.kother, rest)
    | _ =>
      match scan fuel .val cs with
      | some (_, r) => scan fuel .arrNext (skipWs r)
      | none => none
  | fuel + 1, .arrNext, cs =>
    match cs with
    | ']' :: rest => some (.kother, rest)
    | ',' :: rest =>
      match scan fuel .val (skipWs rest) with
      | some (_, r) => scan fuel .arrNext (skipWs r)
      | none => none
    | _ => none
  | fuel + 1, .objFirst, cs =>
    match cs with
    | '}' :: rest => some (.kother, rest)
    | '"' :: rest =>
      match scanString rest with
      | some (_, r) =>
        match skipWs r with
        | ':' :: r2 =>
          match scan fuel .val (skipWs r2) with
          | some (_, r3) => scan fuel .objNext (skipWs r3)
          | none => none
        | _ => none
      | none => none
    | _ => none
  | fuel + 1, .objNext, cs =>
    match cs with
    | '}' :: rest => some (.kother, rest)
    | ',' :: rest =>
      match skipWs rest with
      | '"' :: r =>
        match scanString r with
        | some (_, r1) =>
          match skipWs r1 with
          | ':' :: r2 =>
            match scan fuel .val (skipWs r2) with
            | some (_, r3) => scan fuel .objNext (skipWs r3)
            | none => none
          | _ => none
        | none => none
      | _ => none
    | _ => none

/-- `json.loads` on a stored text: skip surrounding whitespace, scan one
value, and require only whitespace after it.  `none` models the raised
`JSONDecodeError` (the program then falls back to the raw string). -/
def jsonLoads (s : String) : Option JKind :=
  match scan (2 * s.length + 4) .val (skipWs s.toList) with
  | some (k, rest) => if skipWs rest = [] then some k else none
  | none => none

/-- The Python value that `json.loads` gives `CacheService.get` for a
stored text: a decoded scalar, or the `pyjson` bucket for a successfully
parsed value the embedding does not decode. -/
def parseJson (s : String) : Option PyVal :=
  match jsonLoads s with
  | some .knull => some .pynone
  | some (.kbool b) => some (.pybool b)
  | some (.kint n) => some (.pyint n)
  | some (.kstr (some body)) => some (.pystr body)
  | some (.kstr none) => some (.pyjson s)
  | some .kother => some (.pyjson s)
  | none => none

/-- The deserialization step of `CacheService.get`: `json.loads` with
raw-string fallback (`except (json.JSONDecodeError, TypeError): return
value`). -/
def deserialize (stored : String) : PyVal :=
  match parseJson stored with
  | some v => v
  | none => .pystr stored

/-- The modeled scalar values: everything except the undecoded `pyjson`
bucket. -/
def PyVal.isScalar : PyVal → Bool
  | .pyjson _ => false
  | _ => true

/-- `v` is a modeled scalar and survives a store round trip: deserializing
its stored form gives `v` back. -/
def roundTrips (v : PyVal) : Prop :=
  v.isScalar = true ∧ deserialize (serializeForStore v) = v

instance (v : PyVal) : Decidable (roundTrips v) :=
  inferInstanceAs (Decidable (_ ∧ _))

/-- One Redis entry: the stored string and its absolute expiration time
(seconds; `setex key ttl v` at time `t` stores expiration `t + ttl`). -/
structure Entry where
  value : String
  expireAt : Nat
  deriving Repr, DecidableEq

/-- The shared key-value store, keyed by cache / lock key. -/
structure Store where
  entries : List (String × Entry)
  deriving Repr, DecidableEq

/-- A live read at time `now`: the entry's value while `now` is before the
expiration, a miss afterwards (Redis deletes expired keys on access). -/
def Store.liveGet (st : Store) (now : Nat) (k : String) : Option String :=
  match alookup st.entries k with
  | none => none
  | some e => if now < e.expireAt then some e.value else none

/-- `setex` / `set ... ex=ttl`: bind `k` for the next `ttl` seconds. -/
def Store.put (st : Store) (now : Nat) (k v : String) (ttl : Nat) : Store :=
  { entries := (k, { value := v, expireAt := now + ttl }) :: aremove st.entries k }

/-- `delete k`. -/
def Store.del (st : Store) (k : String) : Store :=
  { entries := aremove st.entries k }

/-- Which of the four kinds of raw Redis calls reached by
`CacheService.get_or_set` raise a store error (an unreachable store). -/
structure Faults where
  getFails : Bool
  setFails : Bool
  setnxFails : Bool
  delFails : Bool
  deriving Repr, DecidableEq

/-- `redis_client.get` under fault injection. -/
def redisGet (f : Faults) (st : Store) (now : Nat) (k : String) :
    Except Unit (Option String) :=
  if f.getFails then .error () else .ok (st.liveGet now k)

/-- `redis_client.setex` under fault injection. -/
def redisSetex (f : Faults) (st : Store) (now : Nat) (k v : String)
    (ttl : Nat) : Except Unit Store :=
  if f.setFails then .error () else .ok (st.put now k v ttl)

/-- `redis_client.set(k, v, nx=True, ex=ttl)` under fault injection:
atomically binds `k` only when no live binding exists, and reports whether
it did. -/
def redisSetnx (f : Faults) (st : Store) (now : Nat) (k v : String)
    (ttl : Nat) : Except Unit (Bool × Store) :=
  if f.setnxFails then .error ()
  else match st.liveGet now k with
    | some _ => .ok (false, st)
    | none => .ok (true, st.put now k v ttl)

/-- `redis_client.delete` under fault injection. -/
def redisDel (f : Faults) (st : Store) (k : String) : Except Unit Store :=
  if f.delFails then .error () else .ok (st.del k)

/-- The `REDIS_CACHE_TTL` default (300 s). -/
def defaultTtl : Nat := 300

/-- `CacheService.lock_timeout` (10 s). -/
def lockTimeout : Nat := 10

/-- `ttl = ttl or self.default_ttl` — Python `or` also replaces an explicit
`0` by the default. -/
def effectiveTtl : Option Nat → Nat
  | none => defaultTtl
  | some 0 => defaultTtl
  | some t => t

namespace CacheService

/-- `CacheService.get`, lines 41-68: `None` when the cache is disabled or
the key is missing; otherwise `json.loads` with raw-string fallback; every
store error is swallowed into a miss.  The result is the Python return
value, where `pynone` is both a parsed JSON `null` and the miss signal. -/
def get (avail : Bool) (f : Faults) (st : Store) (now : Nat) (k : String) :
    PyVal :=
  if avail then
    match redisGet f st now k with
    | .error _ => .pynone
    | .ok none => .pynone
    | .ok (some stored) => deserialize stored
  else .pynone

/-- `CacheService.set`, lines 70-101: serialize, apply the default TTL,
`setex`; `False` and no effect when the cache is disabled or the store
errors. -/
def set (avail : Bool) (f : Faults) (st : Store) (now : Nat) (k : String)
    (v : PyVal) (ttl : Option Nat) : Bool × Store :=
  if avail then
    match redisSetex f st now k (serializeForStore v) (effectiveTtl ttl) with
    | .error _ => (false, st)
    | .ok st' => (true, st')
  else (false, st)

/-- How a `get_or_set` call ends: with a value, with a store error escaping
the raw lock-acquisition call, or with an error raised by the callback. -/
inductive GosResult
  | val (v : PyVal)
  | storeErr
  | cbErr
  deriving Repr, DecidableEq

/-- The retry loop of `CacheService.get_or_set`, lines 217-285, with
`fuel` attempts left out of `max_retries`:

* `fuel = 0`: the loop is exhausted — fall back to computing without the
  lock and best-effort cache the result (lines 272-285);
* otherwise one `for` iteration: the raw `redis_client.set(lock_key, "1",
  nx=True, ex=lock_timeout)` — NOT wrapped in any `try`, so a store error
  escapes; on acquisition, double-check the cache, compute, `self.set`,
  and always release the lock (`finally`, itself guarded by `try`); on a
  held lock, sleep, re-check the cache, and retry. -/
def getOrSetLoop (f : Faults) (now : Nat) (k : String)
    (cb : Except Unit PyVal) (ttl : Option Nat) :
    Nat → Store → GosResult × Store
  | 0, st =>
    match cb with
    | .error _ => (.cbErr, st)
    | .ok v =>
      let (_, st') := set true f st now k v ttl
      (.val v, st')
  | fuel + 1, st =>
    match redisSetnx f st now ("lock:" ++ k) "1" lockTimeout with
    | .error _ => (.storeErr, st)
    | .ok (true, st1) =>
      let cached := get true f st1 now k
      if cached ≠ .pynone then
        let st2 := match redisDel f st1 ("lock:" ++ k) with
          | .error _ => st1
          | .ok st' => st'
        (.val cached, st2)
      else
        match cb with
        | .error _ =>
          let st2 := match redisDel f st1 ("lock:" ++ k) with
            | .error _ => st1
            | .ok st' => st'
          (.cbErr, st2)
        | .ok v =>
          let (_, st2) := set true f st1 now k v ttl
          let st3 := match redisDel f st2 ("lock:" ++ k) with
            | .error _ => st2
            | .ok st' => st'
          (.val v, st3)
    | .ok (false, st1) =>
      let cached := get true f st1 now k
      if cached ≠ .pynone then (.val cached, st1)
      else getOrSetLoop f now k cb ttl fuel st1

/-- `CacheService.get_or_set`, lines 163-285, one worker: direct
computation when the cache is unavailable; fast-path `get`; then the
distributed-lock retry loop. -/
def getOrSet (avail : Bool) (f : Faults) (st : Store) (now : Nat)
    (k : String) (cb : Except Unit PyVal) (ttl : Option Nat)
    (maxRetries : Nat) : GosResult × Store :=
  if avail then
    let cached := get avail f st now k
    if cached ≠ .pynone then (.val cached, st)
    else getOrSetLoop f now k cb ttl maxRetries st
  else
    match cb with
    | .error _ => (.cbErr, st)
    | .ok v => (.val v, st)

end CacheService

/-! ### The stampede model: N workers running `get_or_set` concurrently

Each worker executes `CacheService.get_or_set` (fault-free store, shared
cache value and lock key, one expiration cycle, a deterministic callback
returning `v`).  A worker is a program counter over the statements of the
Python function; the shared state is the cache binding for the key, the
lock binding, and the number of callback invocations so far.  A schedule
(list of worker indices) picks which worker performs its next atomic store
operation; `time.sleep` and the duration of `callback()` are the points
where other workers interleave. -/

/-- The program counter of one `get_or_set` worker.  `tryLock r` is the
`for` loop head with `r` attempts left; `sleeping r` is after a failed
acquisition (about to re-check the cache); `doubleCheck` is after a
successful acquisition; `compute` / `publish` split `value = callback()`
from `self.set` + lock release; `fbCompute` / `fbPublish` are the
after-retries fallback (lines 272-285). -/
inductive WPhase
  | start
  | tryLock (r : Nat)
  | sleeping (r : Nat)
  | doubleCheck
  | compute
  | publish
  | fbCompute
  | fbPublish
  | done (res : Nat)
  deriving Repr, DecidableEq

/-- Shared state of the stampede model: the cached value for the key, the
lock key, and how many times the callback has run. -/
structure SState where
  cache : Option Nat
  lock : Bool
  count : Nat
  deriving Repr, DecidableEq

/-- One atomic step of one worker (`v` the callback's value, `maxR` the
`max_retries` argument), following `get_or_set` line by line. -/
def stepWorker (v maxR : Nat) (sh : SState) : WPhase → SState × WPhase
  | .start =>
    match sh.cache with
    | some w => (sh, .done w)
    | none => (sh, .tryLock maxR)
  | .tryLock (r + 1) =>
    if sh.lock then (sh, .sleeping r)
    else ({ sh with lock := true }, .doubleCheck)
  | .tryLock 0 => (sh, .fbCompute)
  | .sleeping r =>
    match sh.cache with
    | some w => (sh, .done w)
    | none => (sh, .tryLock r)
  | .doubleCheck =>
    match sh.cache with
    | some w => ({ sh with lock := false }, .done w)
    | none => (sh, .compute)
  | .compute => ({ sh with count := sh.count + 1 }, .publish)
  | .publish => ({ sh with cache := some v, lock := false }, .done v)
  | .fbCompute => ({ sh with count := sh.count + 1 }, .fbPublish)
  | .fbPublish => ({ sh with cache := some v }, .done v)
  | .done w => (sh, .done w)

/-- The whole system: shared state plus each worker's phase. -/
structure Sys where
  sh : SState
  workers : List WPhase
  deriving Repr, DecidableEq

/-- Schedule worker `i` for one step (out-of-range indices do nothing). -/
def sysStep (v maxR : Nat) (s : Sys) (i : Nat) : Sys :=
  match s.workers[i]? with
  | none => s
  | some w =>
    { sh := (stepWorker v maxR s.sh w).1
      workers := s.workers.set i (stepWorker v maxR s.sh w).2 }

/-- Run a schedule from the all-idle initial state with an empty cache. -/
def sysRun (v maxR n : Nat) (sched : List Nat) : Sys :=
  sched.foldl (sysStep v maxR)
    { sh := { cache := none, lock := false, count := 0 }
      workers := List.replicate n .start }

/-- How many callback invocations a worker in this phase may still
perform (used for the `count ≤ N` bound). -/
def phasePotential : WPhase → Nat
  | .publish => 0
  | .fbPublish => 0
  | .done _ => 0
  | _ => 1

/-- An adversarial but feasible schedule for six workers with
`max_retries = 3`: worker 0 acquires the lock, double-checks, and its
callback runs long (its publish step comes last); workers 1-5 each exhaust
their three lock attempts while the cache is still empty — the realistic
situation of a callback slower than `max_retries * retry_delay` — and each
falls back to computing without the lock (lines 272-285 of
`cache_service.py`). -/
def stampedeSched : List Nat :=
  [0, 0, 0, 1, 2, 3, 4, 5]
  ++ [1, 1, 1, 1, 1, 1, 1, 1] ++ [2, 2, 2, 2, 2, 2, 2, 2]
  ++ [3, 3, 3, 3, 3, 3, 3, 3] ++ [4, 4, 4, 4, 4, 4, 4, 4]
  ++ [5, 5, 5, 5, 5, 5, 5, 5]
  ++ [0, 0] ++ [1, 2, 3, 4, 5]

/-! ## Theorems -/

/-- The executable subtraction of the embedding is rational subtraction. -/
theorem ratSub_eq (a b : Rat) : ratSub a b = a - b := by
  have ha : ((a.den : ℚ)) ≠ 0 := by exact_mod_cast a.den_nz
  have hb : ((b.den : ℚ)) ≠ 0 := by exact_mod_cast b.den_nz
  unfold ratSub
  rw [Rat.mkRat_eq_div]
  conv_rhs => rw [← Rat.num_div_den a, ← Rat.num_div_den b]
  rw [div_sub_div _ _ ha hb]
  push_cast
  ring_nf

/-- The executable absolute value of the embedding is `|·|`. -/
theorem pyAbs_eq (a : Rat) : pyAbs a = |a| := by
  unfold pyAbs
  by_cases h : a < 0
  · rw [if_pos (show Rat.blt a 0 = true from h)]
    rw [abs_of_neg h, ← Rat.neg_mkRat, Rat.mkRat_self]
  · rw [if_neg (show ¬ Rat.blt a 0 = true from h)]
    rw [abs_of_nonneg (not_lt.mp h)]

/-- The price tolerance of the embedding is the source's `0.01`. -/
theorem priceTol_eq : priceTol = 1 / 100 := by
  unfold priceTol
  rw [Rat.mkRat_eq_div]
  norm_num

/-- The price-mismatch test of the embedding, read through `|·|`. -/
theorem priceCheck_iff (a b : Rat) :
    Rat.blt priceTol (pyAbs (ratSub a b)) = true ↔ |a - b| > 1 / 100 := by
  rw [ratSub_eq, pyAbs_eq, priceTol_eq]
  exact Iff.rfl

theorem alookup_mem {κ α : Type} [DecidableEq κ] {l : List (κ × α)} {i : κ}
    {v : α} (h : alookup l i = some v) : (i, v) ∈ l := by
  induction l with
  | nil => simp [alookup] at h
  | cons kv rest ih =>
    obtain ⟨k, w⟩ := kv
    simp only [alookup] at h
    by_cases hk : k = i
    · rw [if_pos hk] at h
      cases h
      subst hk
      exact List.mem_cons_self _ _
    · rw [if_neg hk] at h
      exact List.mem_cons_of_mem _ (ih h)

theorem alookup_aupdate {κ α : Type} [DecidableEq κ] (l : List (κ × α))
    (i : κ) (f : α → α) (j : κ) :
    alookup (aupdate l i f) j =
      if j = i then (alookup l j).map f else alookup l j := by
  induction l with
  | nil => by_cases h : j = i <;> simp [aupdate, alookup, h]
  | cons kv rest ih =>
    obtain ⟨k, w⟩ := kv
    simp only [aupdate, alookup]
    by_cases hkj : k = j
    · subst hkj
      by_cases hki : k = i <;> simp [hki, ih]
    · simp [hkj, ih]

theorem alookup_aremove {κ α : Type} [DecidableEq κ] (l : List (κ × α))
    (i : κ) (j : κ) :
    alookup (aremove l i) j = if j = i then none else alookup l j := by
  induction l with
  | nil => by_cases h : j = i <;> simp [aremove, alookup, h]
  | cons kv rest ih =>
    obtain ⟨k, w⟩ := kv
    simp only [aremove]
    by_cases hki : k = i
    · subst hki
      rw [if_pos rfl, ih]
      by_cases hjk : j = k
      · simp [hjk]
      · rw [if_neg hjk, if_neg hjk]
        simp only [alookup]
        rw [if_neg (fun h : k = j => hjk h.symm)]
    · rw [if_neg hki]
      simp only [alookup]
      by_cases hkj : k = j
      · subst hkj
        simp [fun h : k = i => hki h]
      · simp [hkj, ih]

theorem aremove_eq_self {κ α : Type} [DecidableEq κ] {l : List (κ × α)}
    {i : κ} (h : ∀ kv ∈ l, kv.1 ≠ i) : aremove l i = l := by
  induction l with
  | nil => rfl
  | cons kv rest ih =>
    obtain ⟨k, w⟩ := kv
    have h1 : k ≠ i := h (k, w) (List.mem_cons_self _ _)
    simp [aremove, h1, ih (fun kv' hm => h kv' (List.mem_cons_of_mem _ hm))]

theorem mem_aupdate {κ α : Type} [DecidableEq κ] {l : List (κ × α)} {i : κ}
    {f : α → α} {kv' : κ × α} (h : kv' ∈ aupdate l i f) :
    kv' ∈ l ∨ ∃ kv ∈ l, kv.1 = i ∧ kv' = (kv.1, f kv.2) := by
  induction l with
  | nil => simp [aupdate] at h
  | cons kv rest ih =>
    obtain ⟨k, w⟩ := kv
    simp only [aupdate, List.mem_cons] at h
    rcases h with h | h
    · by_cases hki : k = i
      · exact Or.inr ⟨(k, w), List.mem_cons_self _ _, hki, by simp [h, hki]⟩
      · rw [if_neg hki] at h
        exact Or.inl (by simp [h])
    · rcases ih h with h' | ⟨kv0, hm, hk, he⟩
      · exact Or.inl (List.mem_cons_of_mem _ h')
      · exact Or.inr ⟨kv0, List.mem_cons_of_mem _ hm, hk, he⟩

theorem mem_aremove {κ α : Type} [DecidableEq κ] {l : List (κ × α)} {i : κ}
    {kv' : κ × α} (h : kv' ∈ aremove l i) : kv' ∈ l := by
  induction l with
  | nil => simp [aremove] at h
  | cons kv rest ih =>
    obtain ⟨k, w⟩ := kv
    simp only [aremove] at h
    by_cases hki : k = i
    · rw [if_pos hki] at h
      exact List.mem_cons_of_mem _ (ih h)
    · rw [if_neg hki] at h
      rcases List.mem_cons.mp h with h' | h'
      · exact h' ▸ List.mem_cons_self _ _
      · exact List.mem_cons_of_mem _ (ih h')

theorem le_foldr_max {l : List Nat} {x : Nat} (h : x ∈ l) :
    x ≤ l.foldr max 0 := by
  induction l with
  | nil => cases h
  | cons y rest ih =>
    rcases List.mem_cons.mp h with rfl | hm
    · exact le_max_left _ _
    · exact le_trans (ih hm) (le_max_right _ _)

theorem freshDetailId_not_key (db : DB) :
    ∀ kv ∈ db.details, kv.1 ≠ db.freshDetailId := by
  intro kv hm
  have : kv.1 ≤ (db.details.map Prod.fst).foldr max 0 :=
    le_foldr_max (List.mem_map_of_mem Prod.fst hm)
  unfold DB.freshDetailId
  omega

/-- C2: a Reserve call (`OrderDetailService.save`) that raises any error —
order or product not found, insufficient stock, price mismatch, or a
persistence failure at the commit — leaves the durable database exactly as
it was: no partial stock decrement and no partially inserted line item. -/
theorem reserve_failure_all_or_nothing (c : Bool) (db : DB) (s : SaveSchema)
    (e : SvcError) (h : (OrderDetailService.save c db s).1 = .error e) :
    (OrderDetailService.save c db s).2 = db := by
  unfold OrderDetailService.save at h ⊢
  by_cases h1 : s.order_id ∈ db.orders
  · rw [if_pos h1] at h ⊢
    cases hp : db.findProduct s.product_id with
    | none => simp
    | some p =>
      rw [hp] at h
      dsimp only at h ⊢
      by_cases h2 : p.stock < s.quantity
      · simp [h2]
      · rw [if_neg h2] at h ⊢
        by_cases h3 : Rat.blt priceTol (pyAbs (ratSub (s.price.getD p.price) p.price)) = true
        · simp [h3]
        · rw [Bool.not_eq_true] at h3
          rw [h3] at h ⊢
          simp only [Bool.false_eq_true, if_false] at h ⊢
          cases c with
          | true => simp at h
          | false => simp
  · rw [if_neg h1]

/-- C2 witness: a Reserve against an absent order fails and leaves the
database unchanged. -/
theorem reserve_failure_all_or_nothing_witness :
    (OrderDetailService.save true
        { orders := [], products := [(1, { stock := 5, price := 3 })], details := [] }
        { quantity := 2, price := none, order_id := 7, product_id := 1 }).1 =
      .error .orderNotFound ∧
    (OrderDetailService.save true
        { orders := [], products := [(1, { stock := 5, price := 3 })], details := [] }
        { quantity := 2, price := none, order_id := 7, product_id := 1 }).2 =
      { orders := [], products := [(1, { stock := 5, price := 3 })], details := [] } :=
  ⟨by rfl, reserve_failure_all_or_nothing true _ _ .orderNotFound (by rfl)⟩

theorem findProduct_setStock (db : DB) (pid : Nat) (v : Int) (j : Nat) :
    (db.setStock pid v).findProduct j =
      if j = pid then (db.findProduct j).map (fun p => { p with stock := v })
      else db.findProduct j := by
  unfold DB.setStock DB.findProduct
  exact alookup_aupdate _ _ _ _

theorem findProduct_insertDetail (db : DB) (i : Nat) (d : OrderDetail)
    (j : Nat) : (db.insertDetail i d).findProduct j = db.findProduct j := rfl

theorem findProduct_setDetail (db : DB) (i : Nat) (d : OrderDetail)
    (j : Nat) : (db.setDetail i d).findProduct j = db.findProduct j := rfl

theorem findProduct_removeDetail (db : DB) (i : Nat) (j : Nat) :
    (db.removeDetail i).findProduct j = db.findProduct j := rfl

theorem findDetail_insertDetail_self (db : DB) (i : Nat) (d : OrderDetail) :
    (db.insertDetail i d).findDetail i = some d := by
  unfold DB.insertDetail DB.findDetail alookup
  rw [if_pos rfl]

theorem findDetail_setStock (db : DB) (pid : Nat) (v : Int) (i : Nat) :
    (db.setStock pid v).findDetail i = db.findDetail i := rfl

theorem findDetail_setDetail (db : DB) (i : Nat) (d : OrderDetail)
    (j : Nat) :
    (db.setDetail i d).findDetail j =
      if j = i then (db.findDetail j).map (fun _ => d) else db.findDetail j := by
  unfold DB.setDetail DB.findDetail
  exact alookup_aupdate _ _ _ _

theorem findDetail_removeDetail (db : DB) (i : Nat) (j : Nat) :
    (db.removeDetail i).findDetail j =
      if j = i then none else db.findDetail j := by
  unfold DB.removeDetail DB.findDetail
  exact alookup_aremove _ _ _

/-- C6: a successful Reserve of quantity `q` followed by a Release of the
line item it created restores the product row exactly (stock back to its
pre-Reserve value) and removes the line item; the order-details table is
exactly what it was before the Reserve. -/
theorem reserve_release_round_trip (db : DB) (s : SaveSchema) (p : Product)
    (horder : s.order_id ∈ db.orders)
    (hp : db.findProduct s.product_id = some p)
    (hstock : ¬ p.stock < s.quantity)
    (hprice : Rat.blt priceTol (pyAbs (ratSub (s.price.getD p.price) p.price)) = false) :
    (OrderDetailService.delete true (OrderDetailService.save true db s).2
        db.freshDetailId).1 = .ok () ∧
    (OrderDetailService.delete true (OrderDetailService.save true db s).2
        db.freshDetailId).2.findProduct s.product_id = some p ∧
    (OrderDetailService.delete true (OrderDetailService.save true db s).2
        db.freshDetailId).2.findDetail db.freshDetailId = none ∧
    (OrderDetailService.delete true (OrderDetailService.save true db s).2
        db.freshDetailId).2.details = db.details := by
  have hsave : (OrderDetailService.save true db s).2 =
      (db.setStock s.product_id (p.stock - s.quantity)).insertDetail
        db.freshDetailId
        { quantity := s.quantity, price := s.price.getD p.price,
          order_id := s.order_id, product_id := s.product_id } := by
    unfold OrderDetailService.save
    rw [if_pos horder, hp]
    dsimp only
    rw [if_neg hstock, hprice]
    simp
  rw [hsave]
  unfold OrderDetailService.delete
  rw [show ((db.setStock s.product_id (p.stock - s.quantity)).insertDetail
      db.freshDetailId
      { quantity := s.quantity, price := s.price.getD p.price,
        order_id := s.order_id, product_id := s.product_id }).findDetail
      db.freshDetailId =
      some { quantity := s.quantity, price := s.price.getD p.price,
             order_id := s.order_id, product_id := s.product_id } from
    findDetail_insertDetail_self _ _ _]
  dsimp only
  rw [findProduct_insertDetail, findProduct_setStock, if_pos rfl, hp]
  dsimp only [Option.map]
  refine ⟨rfl, ?_, ?_, ?_⟩
  · show ((((db.setStock s.product_id (p.stock - s.quantity)).insertDetail
        db.freshDetailId _).setStock s.product_id
        (p.stock - s.quantity + s.quantity)).removeDetail
        db.freshDetailId).findProduct s.product_id = some p
    rw [findProduct_removeDetail, findProduct_setStock, if_pos rfl,
      findProduct_insertDetail, findProduct_setStock, if_pos rfl, hp]
    dsimp only [Option.map]
    rw [Int.sub_add_cancel]
  · show ((((db.setStock s.product_id (p.stock - s.quantity)).insertDetail
        db.freshDetailId _).setStock s.product_id
        (p.stock - s.quantity + s.quantity)).removeDetail
        db.freshDetailId).findDetail db.freshDetailId = none
    rw [findDetail_removeDetail, if_pos rfl]
  · show aremove ((db.freshDetailId,
        ({ quantity := s.quantity, price := s.price.getD p.price,
           order_id := s.order_id, product_id := s.product_id } : OrderDetail))
        :: db.details) db.freshDetailId = db.details
    simp only [aremove]
    rw [if_pos trivial]
    exact aremove_eq_self (freshDetailId_not_key db)

/-- C4 counterexample: a Reserve whose price is off by far more than 0.01
(100 against 10) but whose quantity also exceeds the stock (1 against 0)
fails with the insufficient-stock error, not the price-mismatch one — the
stock check at line 72 of `order_detail_service.py` runs before the price
check at line 88, so the claim's "regardless of whether stock would also
have been insufficient" is false. -/
theorem price_guard_not_checked_first :
    (OrderDetailService.save true
        { orders := [1], products := [(1, { stock := 0, price := 10 })], details := [] }
        { quantity := 1, price := some 100, order_id := 1, product_id := 1 }).1 =
      .error .insufficientStock ∧
    ¬ ((OrderDetailService.save true
        { orders := [1], products := [(1, { stock := 0, price := 10 })], details := [] }
        { quantity := 1, price := some 100, order_id := 1, product_id := 1 }).1 =
      .error .priceMismatch) ∧
    Rat.blt priceTol (pyAbs (ratSub 100 10)) = true := by
  refine ⟨rfl, ?_, rfl⟩
  intro hc
  rw [show (OrderDetailService.save true
      { orders := [1], products := [(1, { stock := 0, price := 10 })], details := [] }
      { quantity := 1, price := some 100, order_id := 1, product_id := 1 }).1 =
      Except.error .insufficientStock from rfl] at hc
  cases hc

/-- C4 (amended): when the locked product's stock does cover the requested
quantity, a Reserve whose supplied price differs from the product's price
by more than 0.01 fails with the price-mismatch `ValueError` (never
insufficient stock or any other error) and the database — in particular
the product's stock — is not mutated.  If stock is also insufficient, the
insufficient-stock error wins instead (see the counterexample). -/
theorem price_guard_when_stock_sufficient (c : Bool) (db : DB)
    (s : SaveSchema) (p : Product) (pr : Rat)
    (horder : s.order_id ∈ db.orders)
    (hp : db.findProduct s.product_id = some p)
    (hstock : ¬ p.stock < s.quantity)
    (hpr : s.price = some pr)
    (hmis : Rat.blt priceTol (pyAbs (ratSub pr p.price)) = true) :
    (OrderDetailService.save c db s).1 = .error .priceMismatch ∧
    (OrderDetailService.save c db s).2 = db := by
  unfold OrderDetailService.save
  rw [if_pos horder, hp]
  dsimp only
  rw [if_neg hstock, hpr]
  dsimp only [Option.getD]
  rw [if_pos hmis]
  exact ⟨rfl, rfl⟩

/-- C4 witness: with ample stock, the same mismatched price is rejected as
a price mismatch and the database is untouched. -/
theorem price_guard_when_stock_sufficient_witness :
    (OrderDetailService.save true
        { orders := [1], products := [(1, { stock := 5, price := 10 })], details := [] }
        { quantity := 1, price := some 100, order_id := 1, product_id := 1 }).1 =
      .error .priceMismatch ∧
    (OrderDetailService.save true
        { orders := [1], products := [(1, { stock := 5, price := 10 })], details := [] }
        { quantity := 1, price := some 100, order_id := 1, product_id := 1 }).2 =
      { orders := [1], products := [(1, { stock := 5, price := 10 })], details := [] } :=
  price_guard_when_stock_sufficient true _ _ { stock := 5, price := 10 } 100
    (by decide) (by rfl) (by decide) (by rfl) (by rfl)

/-- C3 (conservation law at the failing input): reserving 3 units of
product 1 and then adjusting the line item's `product_id` to product 2
(quantity unchanged) leaves product 2's stock at 10 although 3 units are
now reserved against it (10 ≠ 10 − 3), and leaves product 1's stock at 7
although nothing is reserved against it any more (7 ≠ 10 − 0):
`OrderDetailService.update` only ever patches the stock of the *new*
product, and only when the quantity changes — the old product's
reservation is never restored. -/
theorem adjust_product_switch_breaks_conservation :
    (applyOps
        { orders := [1]
          products := [(1, { stock := 10, price := 5 }), (2, { stock := 10, price := 5 })]
          details := [] }
        [ .reserve { quantity := 3, price := some 5, order_id := 1, product_id := 1 } true
        , .adjust 1 { quantity := none, price := none, order_id := none,
                      product_id := some 2 } true ]).findProduct 2 =
      some { stock := 10, price := 5 } ∧
    (applyOps
        { orders := [1]
          products := [(1, { stock := 10, price := 5 }), (2, { stock := 10, price := 5 })]
          details := [] }
        [ .reserve { quantity := 3, price := some 5, order_id := 1, product_id := 1 } true
        , .adjust 1 { quantity := none, price := none, order_id := none,
                      product_id := some 2 } true ]).reservedSum 2 = 3 ∧
    (applyOps
        { orders := [1]
          products := [(1, { stock := 10, price := 5 }), (2, { stock := 10, price := 5 })]
          details := [] }
        [ .reserve { quantity := 3, price := some 5, order_id := 1, product_id := 1 } true
        , .adjust 1 { quantity := none, price := none, order_id := none,
                      product_id := some 2 } true ]).findProduct 1 =
      some { stock := 7, price := 5 } ∧
    (applyOps
        { orders := [1]
          products := [(1, { stock := 10, price := 5 }), (2, { stock := 10, price := 5 })]
          details := [] }
        [ .reserve { quantity := 3, price := some 5, order_id := 1, product_id := 1 } true
        , .adjust 1 { quantity := none, price := none, order_id := none,
                      product_id := some 2 } true ]).reservedSum 1 = 0 ∧
    (10 : Int) - 3 ≠ 10 :=
  ⟨by rfl, by rfl, by rfl, by rfl, by decide⟩

/-- C6 witness: Reserve 3 of 10 then Release restores stock 10 and leaves
no line items. -/
theorem reserve_release_round_trip_witness :
    (OrderDetailService.delete true
        (OrderDetailService.save true
            { orders := [1], products := [(1, { stock := 10, price := 5 })], details := [] }
            { quantity := 3, price := none, order_id := 1, product_id := 1 }).2 1).1 =
      .ok () ∧
    (OrderDetailService.delete true
        (OrderDetailService.save true
            { orders := [1], products := [(1, { stock := 10, price := 5 })], details := [] }
            { quantity := 3, price := none, order_id := 1, product_id := 1 }).2 1).2.findProduct 1 =
      some { stock := 10, price := 5 } ∧
    (OrderDetailService.delete true
        (OrderDetailService.save true
            { orders := [1], products := [(1, { stock := 10, price := 5 })], details := [] }
            { quantity := 3, price := none, order_id := 1, product_id := 1 }).2 1).2.findDetail 1 =
      none ∧
    (OrderDetailService.delete true
        (OrderDetailService.save true
            { orders := [1], products := [(1, { stock := 10, price := 5 })], details := [] }
            { quantity := 3, price := none, order_id := 1, product_id := 1 }).2 1).2.details = [] :=
  reserve_release_round_trip _ _ { stock := 10, price := 5 }
    (by decide) (by rfl) (by decide) (by rfl)

/-- C5: Adjust on an existing line item with old quantity `q_old`, new
quantity `q_new`, against the effective product with stock `s`: with
`delta = q_new − q_old`, the call fails with the insufficient-stock error
iff `delta > 0` and `s < delta`; otherwise it succeeds and the product's
stock becomes `s − delta` (a negative delta increases stock, and an
unchanged quantity leaves it alone). -/
theorem adjust_stock_delta_spec (db : DB) (idKey : Nat) (s : UpdateSchema)
    (existing : OrderDetail) (p : Product) (q : Int)
    (hd : db.findDetail idKey = some existing)
    (hq : s.quantity = some q)
    (horder : ∀ oid ∈ s.order_id, oid ∈ db.orders)
    (hp : db.findProduct (s.product_id.getD existing.product_id) = some p) :
    ((OrderDetailService.update true db idKey s).1 = .error .insufficientStock ↔
      0 < q - existing.quantity ∧ p.stock < q - existing.quantity) ∧
    (¬ (0 < q - existing.quantity ∧ p.stock < q - existing.quantity) →
      (OrderDetailService.update true db idKey s).1 =
        .ok { quantity := q, price := s.price.getD existing.price,
              order_id := s.order_id.getD existing.order_id,
              product_id := s.product_id.getD existing.product_id } ∧
      (OrderDetailService.update true db idKey s).2.findProduct
          (s.product_id.getD existing.product_id) =
        some { p with stock := p.stock - (q - existing.quantity) }) := by
  have horderOk : (match s.order_id with
      | none => true
      | some oid => decide (oid ∈ db.orders)) = true := by
    cases ho : s.order_id with
    | none => rfl
    | some oid => exact decide_eq_true (horder oid (by rw [ho]; rfl))
  have hstock : OrderDetailService.updateStock db existing s =
      (if q ≠ existing.quantity then
        (if 0 < q - existing.quantity ∧ p.stock < q - existing.quantity then
          .error .insufficientStock
        else .ok (db.setStock (s.product_id.getD existing.product_id)
            (p.stock - (q - existing.quantity))))
       else .ok db) := by
    unfold OrderDetailService.updateStock
    rw [hq]
    simp only [Option.isSome_some, Bool.or_true, eq_self_iff_true, if_true]
    rw [hp]
  unfold OrderDetailService.update
  rw [hd]
  dsimp only
  rw [hq, if_pos horderOk, hstock]
  simp only [eq_self_iff_true, if_true]
  by_cases hqe : q = existing.quantity
  · rw [if_neg (by simpa using hqe)]
    dsimp only
    constructor
    · constructor
      · intro h
        exact absurd h (by simp)
      · intro h
        rw [hqe] at h
        simp at h
    · intro _
      refine ⟨rfl, ?_⟩
      rw [findProduct_setDetail, hp, hqe, sub_self, sub_zero]
  · rw [if_pos (by simpa using hqe)]
    by_cases hcond : 0 < q - existing.quantity ∧ p.stock < q - existing.quantity
    · rw [if_pos hcond]
      dsimp only
      constructor
      · exact ⟨fun _ => hcond, fun _ => rfl⟩
      · intro h
        exact absurd hcond h
    · rw [if_neg hcond]
      dsimp only
      constructor
      · constructor
        · intro h
          exact absurd h (by simp)
        · intro h
          exact absurd h hcond
      · intro _
        refine ⟨rfl, ?_⟩
        rw [findProduct_setDetail, findProduct_setStock, if_pos rfl, hp]
        rfl

/-- C5 witness: raising an existing reservation from 2 to 5 against stock
10 succeeds and leaves stock 7. -/
theorem adjust_stock_delta_spec_witness :
    (¬ (0 < (5 : Int) - 2 ∧ (10 : Int) < 5 - 2)) ∧
    (OrderDetailService.update true
        { orders := [1], products := [(1, { stock := 10, price := 5 })],
          details := [(1, { quantity := 2, price := 5, order_id := 1, product_id := 1 })] }
        1 { quantity := some 5, price := none, order_id := none, product_id := none }).1 =
      .ok { quantity := 5, price := 5, order_id := 1, product_id := 1 } ∧
    (OrderDetailService.update true
        { orders := [1], products := [(1, { stock := 10, price := 5 })],
          details := [(1, { quantity := 2, price := 5, order_id := 1, product_id := 1 })] }
        1 { quantity := some 5, price := none, order_id := none, product_id := none }).2.findProduct 1 =
      some { stock := 7, price := 5 } :=
  ⟨by decide,
    ((adjust_stock_delta_spec _ 1 _
        { quantity := 2, price := 5, order_id := 1, product_id := 1 }
        { stock := 10, price := 5 } 5
        (by rfl) (by rfl) (by decide) (by rfl)).2 (by decide)).1,
    ((adjust_stock_delta_spec _ 1 _
        { quantity := 2, price := 5, order_id := 1, product_id := 1 }
        { stock := 10, price := 5 } 5
        (by rfl) (by rfl) (by decide) (by rfl)).2 (by decide)).2⟩

/-- C10: an Adjust that changes the line item's `product_id` but supplies
no quantity (or the unchanged quantity) mutates no product's stock — the
products table is untouched even though the line item now references the
new product.  (`OrderDetailService.update` only enters its stock branch
when a supplied quantity differs from the existing one.) -/
theorem adjust_product_switch_no_stock_mutation (db : DB) (idKey : Nat)
    (s : UpdateSchema) (existing : OrderDetail) (p : Product) (newPid : Nat)
    (hd : db.findDetail idKey = some existing)
    (hpid : s.product_id = some newPid)
    (hq : s.quantity = none ∨ s.quantity = some existing.quantity)
    (horder : ∀ oid ∈ s.order_id, oid ∈ db.orders)
    (hp : db.findProduct newPid = some p) :
    (OrderDetailService.update true db idKey s).1 =
      .ok { quantity := s.quantity.getD existing.quantity,
            price := s.price.getD existing.price,
            order_id := s.order_id.getD existing.order_id,
            product_id := newPid } ∧
    (OrderDetailService.update true db idKey s).2.products = db.products ∧
    (OrderDetailService.update true db idKey s).2.findDetail idKey =
      some { quantity := s.quantity.getD existing.quantity,
             price := s.price.getD existing.price,
             order_id := s.order_id.getD existing.order_id,
             product_id := newPid } := by
  have horderOk : (match s.order_id with
      | none => true
      | some oid => decide (oid ∈ db.orders)) = true := by
    cases ho : s.order_id with
    | none => rfl
    | some oid => exact decide_eq_true (horder oid (by rw [ho]; rfl))
  have hstock : OrderDetailService.updateStock db existing s = .ok db := by
    unfold OrderDetailService.updateStock
    rw [hpid]
    simp only [Option.isSome_some, Bool.true_or, if_true]
    dsimp only [Option.getD]
    rw [hp]
    dsimp only
    rcases hq with hq | hq
    · rw [hq]
    · rw [hq]
      dsimp only
      rw [if_neg (by simp)]
  unfold OrderDetailService.update
  rw [hd]
  dsimp only
  rw [if_pos horderOk]
  rw [hstock]
  dsimp only
  rw [hpid]
  simp only [eq_self_iff_true, if_true]
  refine ⟨rfl, rfl, ?_⟩
  rw [findDetail_setDetail, if_pos rfl, hd]
  rfl

/-- C10 witness: switching the line item from product 1 to product 2
without supplying a quantity leaves both stocks untouched. -/
theorem adjust_product_switch_no_stock_mutation_witness :
    (OrderDetailService.update true
        { orders := [1],
          products := [(1, { stock := 7, price := 5 }), (2, { stock := 9, price := 4 })],
          details := [(1, { quantity := 3, price := 5, order_id := 1, product_id := 1 })] }
        1 { quantity := none, price := none, order_id := none, product_id := some 2 }).1 =
      .ok { quantity := 3, price := 5, order_id := 1, product_id := 2 } ∧
    (OrderDetailService.update true
        { orders := [1],
          products := [(1, { stock := 7, price := 5 }), (2, { stock := 9, price := 4 })],
          details := [(1, { quantity := 3, price := 5, order_id := 1, product_id := 1 })] }
        1 { quantity := none, price := none, order_id := none, product_id := some 2 }).2.products =
      [(1, { stock := 7, price := 5 }), (2, { stock := 9, price := 4 })] ∧
    (OrderDetailService.update true
        { orders := [1],
          products := [(1, { stock := 7, price := 5 }), (2, { stock := 9, price := 4 })],
          details := [(1, { quantity := 3, price := 5, order_id := 1, product_id := 1 })] }
        1 { quantity := none, price := none, order_id := none, product_id := some 2 }).2.findDetail 1 =
      some { quantity := 3, price := 5, order_id := 1, product_id := 2 } :=
  adjust_product_switch_no_stock_mutation _ 1 _
    { quantity := 3, price := 5, order_id := 1, product_id := 1 }
    { stock := 9, price := 4 } 2
    (by rfl) (by rfl) (Or.inl rfl) (by decide) (by rfl)

theorem stocksNonneg_setStock {db : DB} {pid : Nat} {v : Int}
    (h : db.stocksNonneg) (hv : 0 ≤ v) : (db.setStock pid v).stocksNonneg := by
  intro kv hm
  rcases mem_aupdate hm with hm1 | ⟨kv0, hm0, hk0, heq⟩
  · exact h kv hm1
  · subst heq
    exact hv

theorem inv_setStock {db : DB} {pid : Nat} {v : Int}
    (h : db.inv) (hv : 0 ≤ v) : (db.setStock pid v).inv :=
  ⟨stocksNonneg_setStock h.1 hv, h.2⟩

theorem inv_insertDetail {db : DB} {i : Nat} {d : OrderDetail}
    (h : db.inv) (hq : 0 < d.quantity) : (db.insertDetail i d).inv := by
  refine ⟨h.1, ?_⟩
  intro kv hm
  rcases List.mem_cons.mp hm with heq | hm1
  · rw [heq]
    exact hq
  · exact h.2 kv hm1

theorem inv_setDetail {db : DB} {i : Nat} {d : OrderDetail}
    (h : db.inv) (hq : 0 < d.quantity) : (db.setDetail i d).inv := by
  refine ⟨h.1, ?_⟩
  intro kv hm
  rcases mem_aupdate hm with hm1 | ⟨kv0, hm0, hk0, heq⟩
  · exact h.2 kv hm1
  · subst heq
    exact hq

theorem inv_removeDetail {db : DB} {i : Nat} (h : db.inv) :
    (db.removeDetail i).inv :=
  ⟨h.1, fun kv hm => h.2 kv (mem_aremove hm)⟩

/-- Reserve preserves the data-model invariant, on success and on every
failure path: the decrement happens only after the stock check. -/
theorem save_preserves_inv (c : Bool) (db : DB) (s : SaveSchema)
    (hv : s.valid) (hi : db.inv) : ((OrderDetailService.save c db s).2).inv := by
  unfold OrderDetailService.save
  by_cases h1 : s.order_id ∈ db.orders
  · rw [if_pos h1]
    cases hp : db.findProduct s.product_id with
    | none => exact hi
    | some p =>
      dsimp only
      by_cases h2 : p.stock < s.quantity
      · rw [if_pos h2]
        exact hi
      · rw [if_neg h2]
        by_cases h3 : Rat.blt priceTol (pyAbs (ratSub (s.price.getD p.price) p.price)) = true
        · rw [if_pos h3]
          exact hi
        · rw [Bool.not_eq_true] at h3
          rw [h3]
          simp only [Bool.false_eq_true, if_false]
          cases c
          · exact hi
          · exact inv_insertDetail (inv_setStock hi (by omega)) hv.1
  · rw [if_neg h1]
    exact hi

/-- The stock branch of Adjust returns an invariant-preserving state. -/
theorem updateStock_inv {db : DB} {existing : OrderDetail} {s : UpdateSchema}
    {db1 : DB} (h : OrderDetailService.updateStock db existing s = .ok db1)
    (hi : db.inv) : db1.inv := by
  unfold OrderDetailService.updateStock at h
  by_cases hc : (s.product_id.isSome || s.quantity.isSome) = true
  · rw [if_pos hc] at h
    dsimp only at h
    cases hp : db.findProduct (s.product_id.getD existing.product_id) with
    | none =>
      rw [hp] at h
      cases h
    | some p =>
      rw [hp] at h
      dsimp only at h
      have h0 : (0 : Int) ≤ p.stock := hi.1 _ (alookup_mem hp)
      cases hsq : s.quantity with
      | none =>
        rw [hsq] at h
        dsimp only at h
        cases h
        exact hi
      | some q =>
        rw [hsq] at h
        dsimp only at h
        by_cases hqe : q ≠ existing.quantity
        · rw [if_pos hqe] at h
          by_cases hg : 0 < q - existing.quantity ∧ p.stock < q - existing.quantity
          · rw [if_pos hg] at h
            cases h
          · rw [if_neg hg] at h
            cases h
            exact inv_setStock hi (by omega)
        · rw [if_neg hqe] at h
          cases h
          exact hi
  · rw [if_neg hc] at h
    cases h
    exact hi

/-- Adjust preserves the data-model invariant, on success and on every
failure path. -/
theorem update_preserves_inv (c : Bool) (db : DB) (i : Nat)
    (s : UpdateSchema) (hv : s.valid) (hi : db.inv) :
    ((OrderDetailService.update c db i s).2).inv := by
  unfold OrderDetailService.update
  cases hd : db.findDetail i with
  | none => exact hi
  | some existing =>
    dsimp only
    by_cases ho : (match s.order_id with
        | none => true
        | some oid => decide (oid ∈ db.orders)) = true
    · rw [if_pos ho]
      cases hst : OrderDetailService.updateStock db existing s with
      | error e => exact hi
      | ok db1 =>
        dsimp only
        cases c
        · exact hi
        · refine inv_setDetail (updateStock_inv hst hi) ?_
          cases hsq : s.quantity with
          | none => exact hi.2 _ (alookup_mem hd)
          | some q => exact hv.1 q hsq
    · rw [if_neg ho]
      exact hi

/-- Release preserves the data-model invariant: it only ever increments a
non-negative stock by a positive reserved quantity. -/
theorem delete_preserves_inv (c : Bool) (db : DB) (i : Nat) (hi : db.inv) :
    ((OrderDetailService.delete c db i).2).inv := by
  unfold OrderDetailService.delete
  cases hd : db.findDetail i with
  | none => exact hi
  | some d =>
    dsimp only
    cases hp : db.findProduct d.product_id with
    | none => exact hi
    | some p =>
      dsimp only
      cases c
      · exact hi
      · have h0 : (0 : Int) ≤ p.stock := hi.1 _ (alookup_mem hp)
        have h1 : 0 < d.quantity := hi.2 _ (alookup_mem hd)
        exact inv_removeDetail (inv_setStock hi (by omega))

/-- C1: from a state where every stock is non-negative (and every reserved
quantity positive, as pydantic guarantees), any sequence of Reserve /
Adjust / Release calls — successful or failed, commits succeeding or not —
keeps the stock of every product non-negative after every operation: each
decrement is guarded by the stock-coverage validation under the row lock.
(Instantiating the operation list with each prefix of a sequence gives the
invariant at every intermediate state.) -/
theorem stock_never_negative (db : DB) (ops : List Op) (hi : db.inv)
    (hv : ∀ op ∈ ops, op.valid) : (applyOps db ops).inv := by
  induction ops generalizing db with
  | nil => exact hi
  | cons op rest ih =>
    have h1 : (applyOp db op).inv := by
      cases op with
      | reserve s c => exact save_preserves_inv c db s (hv _ (List.mem_cons_self _ _)) hi
      | adjust i s c => exact update_preserves_inv c db i s (hv _ (List.mem_cons_self _ _)) hi
      | release i c => exact delete_preserves_inv c db i hi
    exact ih _ h1 (fun op1 h2 => hv op1 (List.mem_cons_of_mem _ h2))

/-- C1 witness: a reserve, an adjust and a release in sequence keep the
invariant. -/
theorem stock_never_negative_witness :
    DB.inv (applyOps
      { orders := [1], products := [(1, { stock := 10, price := 5 })], details := [] }
      [ .reserve { quantity := 3, price := none, order_id := 1, product_id := 1 } true
      , .adjust 1 { quantity := some 5, price := none, order_id := none, product_id := none } true
      , .release 1 true ]) :=
  stock_never_negative _ _ (by decide) (by decide)

/-- C7 counterexample: the stored form of the string value `"123"` is the
raw string, and `CacheService.get` runs `json.loads` on it, so Get returns
the integer `123`, not the string that was Set — the claim fails for
string values whose text parses as JSON. -/
theorem cache_string_roundtrip_fails :
    CacheService.get true
        { getFails := false, setFails := false, setnxFails := false, delFails := false }
        (CacheService.set true
            { getFails := false, setFails := false, setnxFails := false, delFails := false }
            { entries := [] } 0 "k" (.pystr "123") (some 60)).2 10 "k" =
      .pyint 123 ∧
    PyVal.pyint 123 ≠ PyVal.pystr "123" :=
  ⟨by rfl, by decide⟩

/-- C7 (amended): for every scalar value (`None`, booleans, integers,
strings) whose stored form deserializes back to itself — every non-string
scalar, and every string that `json.loads` rejects — a Get before the TTL
expires returns the value Set, and a Get at or after expiration returns a
miss (`None`).  A string value whose text `json.loads` accepts is instead
returned as the parsed value: an integer-text string comes back as the
integer (see the counterexample), a float- or container-text string as the
corresponding undecoded value. -/
theorem cache_set_get_ttl (f : Faults) (st : Store) (k : String) (v : PyVal)
    (ttl t0 t1 t2 : Nat)
    (hget : f.getFails = false) (hset : f.setFails = false)
    (hrt : roundTrips v) (hpos : 0 < ttl)
    (hlive : t1 < t0 + ttl) (hdead : t0 + ttl ≤ t2) :
    CacheService.get true f (CacheService.set true f st t0 k v (some ttl)).2 t1 k = v ∧
    CacheService.get true f (CacheService.set true f st t0 k v (some ttl)).2 t2 k = .pynone := by
  have httl : effectiveTtl (some ttl) = ttl := by
    cases ttl with
    | zero => omega
    | succ t => rfl
  have hstore : (CacheService.set true f st t0 k v (some ttl)).2 =
      st.put t0 k (serializeForStore v) ttl := by
    unfold CacheService.set redisSetex
    rw [if_pos rfl, hset]
    simp only [Bool.false_eq_true, if_false]
    rw [httl]
  rw [hstore]
  constructor
  · unfold CacheService.get redisGet
    rw [if_pos rfl, hget]
    simp only [Bool.false_eq_true, if_false]
    unfold Store.liveGet Store.put
    simp only [alookup]
    rw [if_pos trivial]
    dsimp only
    rw [if_pos hlive]
    exact hrt.2
  · unfold CacheService.get redisGet
    rw [if_pos rfl, hget]
    simp only [Bool.false_eq_true, if_false]
    unfold Store.liveGet Store.put
    simp only [alookup]
    rw [if_pos trivial]
    dsimp only
    rw [if_neg (by omega)]

/-- C7 witness: a non-JSON string survives the round trip within the TTL
and misses after it. -/
theorem cache_set_get_ttl_witness :
    roundTrips (PyVal.pystr "hello") ∧
    CacheService.get true
        { getFails := false, setFails := false, setnxFails := false, delFails := false }
        (CacheService.set true
            { getFails := false, setFails := false, setnxFails := false, delFails := false }
            { entries := [] } 0 "k" (.pystr "hello") (some 60)).2 10 "k" =
      .pystr "hello" ∧
    CacheService.get true
        { getFails := false, setFails := false, setnxFails := false, delFails := false }
        (CacheService.set true
            { getFails := false, setFails := false, setnxFails := false, delFails := false }
            { entries := [] } 0 "k" (.pystr "hello") (some 60)).2 60 "k" =
      .pynone :=
  ⟨by decide,
    (cache_set_get_ttl _ { entries := [] } "k" (.pystr "hello") 60 0 10 60
      rfl rfl (by decide) (by decide) (by decide) (by decide)).1,
    (cache_set_get_ttl _ { entries := [] } "k" (.pystr "hello") 60 0 10 60
      rfl rfl (by decide) (by decide) (by decide) (by decide)).2⟩

/-- C8 counterexample: when the raw `redis_client.set(lock_key, "1",
nx=True, ex=...)` call raises (store unreachable at that moment), the
error escapes `get_or_set` — line 219 of `cache_service.py` is the one
store call not wrapped in a `try` — instead of falling back to the
callback, so the claim is false for the lock-acquisition operation. -/
theorem getOrSet_lock_error_surfaces :
    (CacheService.getOrSet true
        { getFails := false, setFails := false, setnxFails := true, delFails := false }
        { entries := [] } 0 "k" (.ok (.pyint 7)) none 3).1 = .storeErr ∧
    CacheService.GosResult.storeErr ≠ .val (.pyint 7) :=
  ⟨by rfl, by decide⟩

/-- On every path of the retry loop in which the lock-acquisition set does
not raise, no store error surfaces, and a callback error is the only other
error outcome. -/
theorem getOrSetLoop_no_storeErr (f : Faults) (now : Nat) (k : String)
    (cb : Except Unit PyVal) (ttl : Option Nat) (hnx : f.setnxFails = false) :
    ∀ (fuel : Nat) (st : Store),
      (CacheService.getOrSetLoop f now k cb ttl fuel st).1 ≠ .storeErr ∧
      ((CacheService.getOrSetLoop f now k cb ttl fuel st).1 = .cbErr →
        cb = .error ()) := by
  intro fuel
  induction fuel with
  | zero =>
    intro st
    unfold CacheService.getOrSetLoop
    cases hcb : cb with
    | error e =>
      cases e
      exact ⟨(fun h => nomatch h), (fun _ => rfl)⟩
    | ok v =>
      dsimp only
      exact ⟨(fun h => nomatch h), (fun h => nomatch h)⟩
  | succ n ih =>
    intro st
    unfold CacheService.getOrSetLoop redisSetnx
    rw [hnx]
    simp only [Bool.false_eq_true, if_false]
    cases hl : st.liveGet now ("lock:" ++ k) with
    | some w =>
      dsimp only
      by_cases hc : CacheService.get true f st now k ≠ .pynone
      · rw [if_pos hc]
        exact ⟨(fun h => nomatch h), (fun h => nomatch h)⟩
      · rw [if_neg hc]
        exact ih st
    | none =>
      dsimp only
      by_cases hc : CacheService.get true f
          (st.put now ("lock:" ++ k) "1" lockTimeout) now k ≠ .pynone
      · rw [if_pos hc]
        exact ⟨(fun h => nomatch h), (fun h => nomatch h)⟩
      · rw [if_neg hc]
        cases hcb : cb with
        | error e =>
          cases e
          exact ⟨(fun h => nomatch h), (fun _ => rfl)⟩
        | ok v =>
          dsimp only
          exact ⟨(fun h => nomatch h), (fun h => nomatch h)⟩

/-- C8 (amended): provided the lock-acquisition set itself does not raise,
`get_or_set` never surfaces a store error: failures of the cache `get`,
of the cache-value `set` and of the lock delete are all swallowed (the
call degrades to computing directly), and the only error that can
propagate is one raised by the compute callback itself.  The counterexample
shows the lock-acquisition set is the one exception. -/
theorem getOrSet_fail_open_except_lock (avail : Bool) (f : Faults)
    (st : Store) (now : Nat) (k : String) (cb : Except Unit PyVal)
    (ttl : Option Nat) (r : Nat) (hnx : f.setnxFails = false) :
    (CacheService.getOrSet avail f st now k cb ttl r).1 ≠ .storeErr ∧
    ((CacheService.getOrSet avail f st now k cb ttl r).1 = .cbErr →
      cb = .error ()) := by
  unfold CacheService.getOrSet
  cases avail with
  | false =>
    dsimp only
    cases hcb : cb with
    | error e =>
      cases e
      exact ⟨(fun h => nomatch h), (fun _ => rfl)⟩
    | ok v =>
      dsimp only
      exact ⟨(fun h => nomatch h), (fun h => nomatch h)⟩
  | true =>
    dsimp only
    by_cases hc : CacheService.get true f st now k ≠ .pynone
    · rw [if_pos hc]
      exact ⟨(fun h => nomatch h), (fun h => nomatch h)⟩
    · rw [if_neg hc]
      exact getOrSetLoop_no_storeErr f now k cb ttl hnx r st

/-- C8 witness: with the cache store failing on reads, writes and deletes
(but not on the lock set), `get_or_set` still returns the computed value. -/
theorem getOrSet_fail_open_except_lock_witness :
    (CacheService.getOrSet true
        { getFails := true, setFails := true, setnxFails := false, delFails := true }
        { entries := [] } 0 "k" (.ok (.pyint 7)) none 3).1 ≠ .storeErr ∧
    ((CacheService.getOrSet true
        { getFails := true, setFails := true, setnxFails := false, delFails := true }
        { entries := [] } 0 "k" (.ok (.pyint 7)) none 3).1 = .cbErr →
      (Except.ok (PyVal.pyint 7) : Except Unit PyVal) = .error ()) :=
  getOrSet_fail_open_except_lock true _ { entries := [] } 0 "k" _ none 3 rfl

theorem stepWorker_pot (v maxR : Nat) (sh : SState) (w : WPhase) :
    (stepWorker v maxR sh w).1.count + phasePotential (stepWorker v maxR sh w).2 ≤
      sh.count + phasePotential w := by
  cases w with
  | start => cases hcache : sh.cache <;> simp [stepWorker, phasePotential, hcache]
  | tryLock r =>
    cases r with
    | zero => simp [stepWorker, phasePotential]
    | succ n =>
      by_cases hl : sh.lock <;> simp [stepWorker, phasePotential, hl]
  | sleeping r => cases hcache : sh.cache <;> simp [stepWorker, phasePotential, hcache]
  | doubleCheck => cases hcache : sh.cache <;> simp [stepWorker, phasePotential, hcache]
  | compute => simp [stepWorker, phasePotential]
  | publish => simp [stepWorker, phasePotential]
  | fbCompute => simp [stepWorker, phasePotential]
  | fbPublish => simp [stepWorker, phasePotential]
  | done r => simp [stepWorker, phasePotential]

theorem sum_map_set {α : Type} (f : α → Nat) (l : List α) :
    ∀ (i : Nat) (w a : α), l[i]? = some w →
      ((l.set i a).map f).sum + f w = (l.map f).sum + f a := by
  induction l with
  | nil =>
    intro i w a h
    simp at h
  | cons x rest ih =>
    intro i w a h
    cases i with
    | zero =>
      simp only [List.getElem?_cons_zero, Option.some.injEq] at h
      subst h
      simp [List.set]
      omega
    | succ n =>
      simp only [List.getElem?_cons_succ] at h
      have hx := ih n w a h
      simp only [List.set, List.map, List.sum_cons]
      omega

theorem sysStep_pot (v maxR : Nat) (s : Sys) (i : Nat) :
    (sysStep v maxR s i).sh.count +
        (((sysStep v maxR s i).workers.map phasePotential).sum) ≤
      s.sh.count + ((s.workers.map phasePotential).sum) := by
  unfold sysStep
  cases hw : s.workers[i]? with
  | none => simp
  | some w =>
    dsimp only
    have h1 := stepWorker_pot v maxR s.sh w
    have h2 := sum_map_set phasePotential s.workers i w
      (stepWorker v maxR s.sh w).2 hw
    omega

theorem stepWorker_val (v maxR : Nat) (sh : SState) (w : WPhase)
    (hc : ∀ x, sh.cache = some x → x = v)
    (hw : ∀ r, w = .done r → r = v) :
    (∀ x, (stepWorker v maxR sh w).1.cache = some x → x = v) ∧
    (∀ r, (stepWorker v maxR sh w).2 = .done r → r = v) := by
  cases w with
  | start =>
    cases hcache : sh.cache with
    | none =>
      refine ⟨fun x hx => hc x (by simpa [stepWorker, hcache] using hx), ?_⟩
      intro r hr
      simp [stepWorker, hcache] at hr
    | some y =>
      refine ⟨fun x hx => hc x (by simpa [stepWorker, hcache] using hx), ?_⟩
      intro r hr
      simp only [stepWorker, hcache, WPhase.done.injEq] at hr
      rw [← hr]
      exact hc y hcache
  | tryLock r =>
    cases r with
    | zero =>
      exact ⟨fun x hx => hc x hx, fun r hr => by simp [stepWorker] at hr⟩
    | succ n =>
      by_cases hl : sh.lock
      · refine ⟨fun x hx => hc x (by simpa [stepWorker, hl] using hx), ?_⟩
        intro r hr
        simp [stepWorker, hl] at hr
      · refine ⟨fun x hx => hc x (by simpa [stepWorker, hl] using hx), ?_⟩
        intro r hr
        simp [stepWorker, hl] at hr
  | sleeping r =>
    cases hcache : sh.cache with
    | none =>
      refine ⟨fun x hx => hc x (by simpa [stepWorker, hcache] using hx), ?_⟩
      intro r hr
      simp [stepWorker, hcache] at hr
    | some y =>
      refine ⟨fun x hx => hc x (by simpa [stepWorker, hcache] using hx), ?_⟩
      intro r hr
      simp only [stepWorker, hcache, WPhase.done.injEq] at hr
      rw [← hr]
      exact hc y hcache
  | doubleCheck =>
    cases hcache : sh.cache with
    | none =>
      refine ⟨fun x hx => hc x (by simpa [stepWorker, hcache] using hx), ?_⟩
      intro r hr
      simp [stepWorker, hcache] at hr
    | some y =>
      refine ⟨fun x hx => hc x (by simpa [stepWorker, hcache] using hx), ?_⟩
      intro r hr
      simp only [stepWorker, hcache, WPhase.done.injEq] at hr
      rw [← hr]
      exact hc y hcache
  | compute =>
    exact ⟨fun x hx => hc x hx, fun r hr => by simp [stepWorker] at hr⟩
  | publish =>
    refine ⟨?_, ?_⟩
    · intro x hx
      simp only [stepWorker, Option.some.injEq] at hx
      exact hx.symm
    · intro r hr
      simp only [stepWorker, WPhase.done.injEq] at hr
      exact hr.symm
  | fbCompute =>
    exact ⟨fun x hx => hc x hx, fun r hr => by simp [stepWorker] at hr⟩
  | fbPublish =>
    refine ⟨?_, ?_⟩
    · intro x hx
      simp only [stepWorker, Option.some.injEq] at hx
      exact hx.symm
    · intro r hr
      simp only [stepWorker, WPhase.done.injEq] at hr
      exact hr.symm
  | done y =>
    refine ⟨fun x hx => hc x hx, ?_⟩
    intro r hr
    simp only [stepWorker, WPhase.done.injEq] at hr
    rw [← hr]
    exact hw y rfl

theorem sysStep_val (v maxR : Nat) (s : Sys) (i : Nat)
    (hc : ∀ x, s.sh.cache = some x → x = v)
    (hw : ∀ w ∈ s.workers, ∀ r, w = .done r → r = v) :
    (∀ x, (sysStep v maxR s i).sh.cache = some x → x = v) ∧
    (∀ w ∈ (sysStep v maxR s i).workers, ∀ r, w = .done r → r = v) := by
  unfold sysStep
  cases hwi : s.workers[i]? with
  | none => exact ⟨hc, hw⟩
  | some w =>
    dsimp only
    have h1 := stepWorker_val v maxR s.sh w hc (hw w (List.getElem?_mem hwi))
    refine ⟨h1.1, ?_⟩
    intro w1 hw1 r hr
    rcases List.mem_or_eq_of_mem_set hw1 with hmem | heq
    · exact hw w1 hmem r hr
    · subst heq
      exact h1.2 r hr

/-- C9 (amended): with one shared cache entry, one lock key and a
deterministic callback returning `v`, any interleaving of any number of
`get_or_set` workers invokes the callback at most once per worker — at
most N times in total for N workers, each worker computing at most once
either under the lock or in its after-retries fallback — and every worker
that finishes returns exactly `v`.  The retry parameters do not bound the
total: the counterexample schedule reaches N computations. -/
theorem stampede_compute_le_workers (v maxR n : Nat) (sched : List Nat) :
    (sysRun v maxR n sched).sh.count ≤ n ∧
    ∀ w ∈ (sysRun v maxR n sched).workers, ∀ r, w = .done r → r = v := by
  have main : ∀ (sched1 : List Nat) (s : Sys),
      s.sh.count + ((s.workers.map phasePotential).sum) ≤ n →
      (∀ x, s.sh.cache = some x → x = v) →
      (∀ w ∈ s.workers, ∀ r, w = .done r → r = v) →
      (sched1.foldl (sysStep v maxR) s).sh.count +
          (((sched1.foldl (sysStep v maxR) s).workers.map phasePotential).sum) ≤ n ∧
      (∀ x, (sched1.foldl (sysStep v maxR) s).sh.cache = some x → x = v) ∧
      (∀ w ∈ (sched1.foldl (sysStep v maxR) s).workers, ∀ r, w = .done r → r = v) := by
    intro sched1
    induction sched1 with
    | nil => exact fun s h1 h2 h3 => ⟨h1, h2, h3⟩
    | cons i rest ih =>
      intro s h1 h2 h3
      have hv := sysStep_val v maxR s i h2 h3
      exact ih (sysStep v maxR s i)
        (le_trans (sysStep_pot v maxR s i) h1) hv.1 hv.2
  have hinit : ((List.replicate n WPhase.start).map phasePotential).sum = n := by
    rw [show (List.replicate n WPhase.start).map phasePotential =
        List.replicate n 1 from List.map_replicate ..]
    simp [List.sum_replicate]
  have h := main sched ⟨⟨none, false, 0⟩, List.replicate n .start⟩
    (by simp [hinit, phasePotential]) (fun x hx => by simp at hx)
    (fun w hw r hr => by
      rw [List.eq_of_mem_replicate hw] at hr
      cases hr)
  refine ⟨?_, h.2.2⟩
  have h1 := h.1
  show (List.foldl (sysStep v maxR) ⟨⟨none, false, 0⟩, List.replicate n .start⟩ sched).sh.count ≤ n
  omega

set_option maxRecDepth 40000 in
/-- C9 counterexample: six workers, `max_retries = 3`, empty cache.  Under
the feasible schedule `stampedeSched` (the lock holder computes slowly,
every other worker exhausts its retries and falls back), the callback runs
6 times — once per worker — exceeding the specified small bound (≤ 5) and
growing with N rather than with the retry parameters; all six workers do
return the same value. -/
theorem stampede_bound_exceeded :
    (sysRun 99 3 6 stampedeSched).sh.count = 6 ∧
    5 < (sysRun 99 3 6 stampedeSched).sh.count ∧
    (sysRun 99 3 6 stampedeSched).workers = List.replicate 6 (.done 99) :=
  ⟨by rfl, by decide, by rfl⟩

set_option maxRecDepth 40000 in
/-- C9 witness: the amended bound instantiated on the six-worker schedule:
the count is at most 6 and a finished worker returned the callback value. -/
theorem stampede_compute_le_workers_witness :
    (sysRun 99 3 6 stampedeSched).sh.count ≤ 6 ∧ (99 : Nat) = 99 :=
  ⟨(stampede_compute_le_workers 99 3 6 stampedeSched).1,
    (stampede_compute_le_workers 99 3 6 stampedeSched).2
      (.done 99) (by decide) 99 rfl⟩

end FinalCortez
